import Mathlib

/-!
# Verification of the CityDigitalTwin minute-by-minute network simulator

Shallow embedding of `backend/modules/city_digital_twin.py` (class
`CityDigitalTwin`).  Conventions of the embedding:

* Python `int` fields become `Int`; Python `float` values become `ℚ`
  (exact rational arithmetic stands in for IEEE floats — every concrete
  value used in the development below is exactly representable as a
  binary float, so the rational results coincide with the float ones).
* The station map `self.stations` (a Python `dict` keyed by station id)
  becomes an association list with CPython dict semantics: insertion
  overwrites in place, deletion removes the key, iteration follows
  insertion order.
* The stream of `random.random()` draws becomes an explicit trace
  `Nat → String → ℚ` giving the uniform draw consumed by a given station
  in a given minute (each station consumes exactly one draw per minute).
* `_get_arrival_probability` is kept abstract as a rational-valued field
  of the configuration (`SimConfig.arrivalProb`): its fallback branch
  uses `math.exp`, a transcendental real function, and none of the
  verified claims depend on the concrete curve — only on how the result
  is combined with the per-minute demand modifier.
* The `name` and `location` entries of a station record are carried by
  the Python code but never read by the simulation, so the embedding
  elides them.
-/

/-- Input topology record for one station (`stations_data` entries).
Optional fields mirror the `setdefault` calls in `_init_station_state`. -/
structure StationData where
  id : String
  total_slots : Option Int := none
  chargers : Option Int := none
  initial_inventory : Option Int := none
  deriving DecidableEq, Repr

/-- Mutable per-station state, flattening the `metrics` sub-dict of the
Python state dict into top-level fields. -/
structure Station where
  id : String
  total_slots : Int
  chargers : Int
  initial_inventory : Int
  inventory_ready : Int
  inventory_charging : List Int
  queue_length : Int
  total_swaps_fulfilled : Int
  lost_swaps : Int
  total_wait_time_minutes : Int
  idle_inventory_minutes : Int
  charger_utilization_minutes : Int
  deriving DecidableEq, Repr

/-- `_init_station_state`: apply the three `setdefault`s, set
`inventory_ready = initial_inventory`, empty charging list, zero queue,
zeroed metrics. -/
def _init_station_state (d : StationData) : Station :=
  let slots := d.total_slots.getD 15
  let chg := d.chargers.getD 12
  let inv := d.initial_inventory.getD 10
  { id := d.id
    total_slots := slots
    chargers := chg
    initial_inventory := inv
    inventory_ready := inv
    inventory_charging := []
    queue_length := 0
    total_swaps_fulfilled := 0
    lost_swaps := 0
    total_wait_time_minutes := 0
    idle_inventory_minutes := 0
    charger_utilization_minutes := 0 }

/-- The station map `self.stations`, as an association list with dict
semantics (unique keys, insertion order). -/
abbrev StationMap := List (String × Station)

/-- Python dict assignment `m[k] = v`: overwrite in place if the key is
present, otherwise append at the end. -/
def dictInsert (k : String) (v : Station) : StationMap → StationMap
  | [] => [(k, v)]
  | (k', v') :: rest =>
    if k' = k then (k, v) :: rest else (k', v') :: dictInsert k v rest

/-- Python `del m[k]` (keys are unique, so removing the first hit is
removing the key). -/
def dictErase (k : String) : StationMap → StationMap
  | [] => []
  | (k', v') :: rest =>
    if k' = k then rest else (k', v') :: dictErase k rest

/-- Python `k in m`. -/
def containsKey (k : String) (m : StationMap) : Bool :=
  m.any fun p => p.1 = k

/-- The four intervention variants accepted by `run_simulation`. -/
inductive Intervention where
  | add_station (data : StationData)
  | remove_station (station_id : String)
  | modify_chargers (station_id : String) (count : Int)
  | shift_demand (factor : ℚ) (window : ℚ × ℚ)
  deriving DecidableEq, Repr

/-- `_apply_static_interventions`, one action. `shift_demand` is not a
static intervention and leaves the map unchanged. -/
def applyIntervention (m : StationMap) : Intervention → StationMap
  | .add_station d => dictInsert d.id (_init_station_state d) m
  | .remove_station sid => if containsKey sid m then dictErase sid m else m
  | .modify_chargers sid c =>
    if containsKey sid m then
      m.map fun p => if p.1 = sid then (p.1, { p.2 with chargers := c }) else p
    else m
  | .shift_demand _ _ => m

/-- `_apply_static_interventions` over the whole intervention list, in
order. -/
def _apply_static_interventions (m : StationMap) (ivs : List Intervention) : StationMap :=
  ivs.foldl applyIntervention m

/-- `_get_current_demand_modifier`: start from `1.0` and multiply in the
factor of each `shift_demand` whose window `[start, end)` contains the
(fractional) current hour. -/
def _get_current_demand_modifier (hour : ℚ) (ivs : List Intervention) : ℚ :=
  ivs.foldl
    (fun acc a =>
      match a with
      | .shift_demand f w => if w.1 ≤ hour ∧ hour < w.2 then acc * f else acc
      | _ => acc)
    1

/-- Simulation configuration: `avg_charge_time_minutes` from
`simulation_config.json` (absent when the file is missing or malformed)
plus the abstract arrival-probability function `_get_arrival_probability`
(see module header). -/
structure SimConfig where
  avgChargeTime : Option Int
  arrivalProb : Station → ℚ → ℚ

/-- `self.CHARGE_TIME_MINUTES = self.config.get("avg_charge_time_minutes", 60)`. -/
def CHARGE_TIME_MINUTES (cfg : SimConfig) : Int :=
  cfg.avgChargeTime.getD 60

/-- The charging loop of `_simulate_station_step` step 1, on the already
sorted list.  Returns the carried-over charging list, the number of
batteries that finished (each incremented `inventory_ready`), and the
number of batteries that progressed (`active_charging_count`). -/
def chargeLoop : Int → List Int → List Int × Nat × Nat
  | _, [] => ([], 0, 0)
  | avail, t :: rest =>
    if 0 < avail then
      let r := chargeLoop (avail - 1) rest
      if t - 1 ≤ 0 then (r.1, r.2.1 + 1, r.2.2 + 1)
      else ((t - 1) :: r.1, r.2.1, r.2.2 + 1)
    else (t :: rest, 0, 0)

/-- Step 1 of `_simulate_station_step`: sort the charging list ascending
(`station["inventory_charging"].sort()` — over integers any stable
ascending sort is the same function, and `insertionSort` is kernel
computable), run the charger-bounded decrement loop, then update the
state and the utilization metric. -/
def chargingPhase (s : Station) : Station :=
  let sorted := s.inventory_charging.insertionSort (· ≤ ·)
  let r := chargeLoop s.chargers sorted
  { s with
    inventory_charging := r.1
    inventory_ready := s.inventory_ready + r.2.1
    charger_utilization_minutes := s.charger_utilization_minutes + r.2.2 }

/-- Step 1b of `_simulate_station_step`: idle-inventory accounting. -/
def idlePhase (s : Station) : Station :=
  if 0 < s.inventory_ready then
    { s with idle_inventory_minutes := s.idle_inventory_minutes + s.inventory_ready }
  else s

/-- Step 2 of `_simulate_station_step`, given the outcome of the
Bernoulli draw: on success either count a lost swap (queue too long, or
moderately long with no ready battery) or join the queue. -/
def arrivalPhase (s : Station) (arrived : Bool) : Station :=
  if arrived then
    if 10 < s.queue_length ∨ (5 < s.queue_length ∧ s.inventory_ready = 0) then
      { s with lost_swaps := s.lost_swaps + 1 }
    else
      { s with queue_length := s.queue_length + 1 }
  else s

/-- The `while bays_free > 0 and queue_length > 0` service loop of
`_simulate_station_step` step 3, recursing on the remaining bays. -/
def serviceLoop (ct : Int) : Nat → Station → Station
  | 0, s => s
  | b + 1, s =>
    if 0 < s.queue_length then
      if 0 < s.inventory_ready then
        serviceLoop ct b
          { s with
            inventory_ready := s.inventory_ready - 1
            queue_length := s.queue_length - 1
            total_swaps_fulfilled := s.total_swaps_fulfilled + 1
            inventory_charging := s.inventory_charging ++ [ct] }
      else s
    else s

/-- Step 3 of `_simulate_station_step`: `bays_free = 4`, fixed. -/
def servicePhase (ct : Int) (s : Station) : Station :=
  serviceLoop ct 4 s

/-- Final accumulation of `_simulate_station_step`: every vehicle still
queued contributes one minute of wait. -/
def waitPhase (s : Station) : Station :=
  { s with total_wait_time_minutes := s.total_wait_time_minutes + s.queue_length }

/-- `_simulate_station_step`: one minute for one station.  `u` is the
uniform draw consumed by this station this minute; the arrival succeeds
when `u < _get_arrival_probability(station, hour) * demand_mod`, where
the probability is evaluated on the state after charging and idle
accounting, exactly as in the source. -/
def _simulate_station_step (cfg : SimConfig) (hour dm u : ℚ) (s : Station) : Station :=
  let s2 := idlePhase (chargingPhase s)
  let s3 := arrivalPhase s2 (decide (u < cfg.arrivalProb s2 hour * dm))
  waitPhase (servicePhase (CHARGE_TIME_MINUTES cfg) s3)

/-- The uniform draws: `trace minute sid` is the `random.random()` value
consumed by station `sid` in minute `minute`. -/
abbrev Trace := Nat → String → ℚ

/-- One pass of the inner `for station_id, station in self.stations.items()`
loop: compute the demand modifier once for the minute and step every
station with it. -/
def stepMinute (cfg : SimConfig) (ivs : List Intervention) (trace : Trace)
    (minute : Nat) (m : StationMap) : StationMap :=
  let hour : ℚ := (minute : ℚ) / 60
  let dm := _get_current_demand_modifier hour ivs
  m.map fun p => (p.1, _simulate_station_step cfg hour dm (trace minute p.1) p.2)

/-- The first `k` iterations of the minute loop of `run_simulation`. -/
def runMinutes (cfg : SimConfig) (ivs : List Intervention) (trace : Trace)
    (m : StationMap) (k : Nat) : StationMap :=
  (List.range k).foldl (fun acc minute => stepMinute cfg ivs trace minute acc) m

/-- Rounding to one decimal as Python's `round(x, 1)` does on exact
values: round half to even. -/
def pyRound1 (q : ℚ) : ℚ :=
  let x := q * 10
  let n : Int := ⌊x⌋
  let r := x - n
  (if r < 1 / 2 then (n : ℚ)
   else if 1 / 2 < r then (n : ℚ) + 1
   else if n % 2 = 0 then (n : ℚ) else (n : ℚ) + 1) / 10

/-- Per-station block of the report. -/
structure StationReport where
  swaps : Int
  lost_swaps : Int
  avg_wait_time_min : ℚ
  charger_utilization_pct : ℚ
  idle_inventory_min : Int
  deriving DecidableEq, Repr

/-- The whole report (`network_summary`). -/
structure Report where
  total_swaps : Int
  lost_swaps : Int
  avg_wait_time : ℚ
  stations : List (String × StationReport)
  deriving DecidableEq, Repr

/-- The per-station derived metrics of `_generate_report`
(`simulation_duration_hours * 60 = 1440`). -/
def stationReportOf (st : Station) : StationReport :=
  let swaps := st.total_swaps_fulfilled
  let avg_wait : ℚ := if 0 < swaps then (st.total_wait_time_minutes : ℚ) / (swaps : ℚ) else 0
  let total_charger_minutes := st.chargers * (24 * 60)
  let utilization_pct : ℚ :=
    if 0 < total_charger_minutes then
      (st.charger_utilization_minutes : ℚ) / (total_charger_minutes : ℚ) * 100
    else 0
  { swaps := swaps
    lost_swaps := st.lost_swaps
    avg_wait_time_min := pyRound1 avg_wait
    charger_utilization_pct := pyRound1 utilization_pct
    idle_inventory_min := st.idle_inventory_minutes }

/-- `_generate_report`: per-station blocks plus network totals; the
network average wait is volume-weighted and guarded by `total_swaps > 0`. -/
def _generate_report (m : StationMap) : Report :=
  let total_swaps : Int := (m.map fun p => p.2.total_swaps_fulfilled).sum
  let total_wait : Int := (m.map fun p => p.2.total_wait_time_minutes).sum
  { total_swaps := total_swaps
    lost_swaps := (m.map fun p => p.2.lost_swaps).sum
    avg_wait_time :=
      if 0 < total_swaps then pyRound1 ((total_wait : ℚ) / (total_swaps : ℚ)) else 0
    stations := m.map fun p => (p.1, stationReportOf p.2) }

/-- The `CityDigitalTwin` instance: `initial_state` is the deep copy of
the constructor argument, `stations` the mutable station map. -/
structure CityDigitalTwin where
  initial_state : List StationData
  stations : StationMap

/-- `{s["id"]: self._init_station_state(s) for s in stations_data}`. -/
def buildStations (l : List StationData) : StationMap :=
  l.foldl (fun m d => dictInsert d.id (_init_station_state d) m) []

/-- `run_simulation`: reset the station map from `initial_state`, apply
static interventions, run 24 × 60 minute-steps, produce the report.
Returns the report together with the post-run twin (whose mutable
station map holds the final states). -/
def run_simulation (cfg : SimConfig) (trace : Trace) (twin : CityDigitalTwin)
    (ivs : List Intervention) : Report × CityDigitalTwin :=
  let m0 := buildStations twin.initial_state
  let m1 := _apply_static_interventions m0 ivs
  let mEnd := runMinutes cfg ivs trace m1 (24 * 60)
  (_generate_report mEnd, { twin with stations := mEnd })

/-! ## Helper lemmas about the charging loop -/

set_option maxRecDepth 4000 in
/-- Characterization of `chargeLoop` for a non-negative number of
chargers: the first `min avail |l|` entries are decremented (those
reaching `≤ 0` leave the list and are counted as ready), the rest are
carried over unchanged, and the active count is `min avail |l|`. -/
lemma chargeLoop_spec : ∀ (l : List Int) (avail : Int), 0 ≤ avail →
    chargeLoop avail l =
      (((l.take avail.toNat).map (fun t => t - 1)).filter (fun t => decide (0 < t))
          ++ l.drop avail.toNat,
        ((l.take avail.toNat).map (fun t => t - 1)).countP (fun t => decide (t ≤ 0)),
        min avail.toNat l.length) := by
  intro l
  induction l with
  | nil => intro avail h; simp [chargeLoop]
  | cons t rest ih =>
    intro avail h
    by_cases h0 : 0 < avail
    · have htn : avail.toNat = (avail - 1).toNat + 1 := by omega
      have hmin : min avail.toNat (t :: rest).length
          = min (avail - 1).toNat rest.length + 1 := by
        simp only [List.length_cons]; omega
      simp only [chargeLoop, if_pos h0, ih (avail - 1) (by omega)]
      by_cases ht : t - 1 ≤ 0
      · have ht' : ¬ (0 < t - 1) := by omega
        have hd1 : (decide ((0 : Int) < t - 1)) = false := by simp; omega
        have hd2 : (decide ((t : Int) - 1 ≤ 0)) = true := by simp [ht]
        rw [if_pos ht, htn]
        simp only [List.take_succ_cons, List.drop_succ_cons, List.map_cons, List.filter_cons,
          List.countP_cons, List.length_cons, hd1, hd2]
        simp only [Prod.mk.injEq, if_true, if_false, Bool.false_eq_true, ite_false, ite_true,
          and_true, true_and]
        omega
      · have ht' : (0 : Int) < t - 1 := by omega
        have hd1 : (decide ((0 : Int) < t - 1)) = true := by simp [ht']
        have hd2 : (decide ((t : Int) - 1 ≤ 0)) = false := by simp; omega
        rw [if_neg ht, htn]
        simp only [List.take_succ_cons, List.drop_succ_cons, List.map_cons, List.filter_cons,
          List.countP_cons, List.length_cons, hd1, hd2]
        simp only [Prod.mk.injEq, if_true, if_false, Bool.false_eq_true, ite_false, ite_true,
          List.cons_append, add_zero, and_true, true_and]
        omega
    · have hz : avail.toNat = 0 := by omega
      simp [chargeLoop, if_neg h0, hz]

/-- Counting facts about `chargeLoop` that hold for any charger count:
surviving entries plus completed entries account for the whole list, and
the active count is `min avail⁺ |l|`. -/
lemma chargeLoop_counts : ∀ (l : List Int) (avail : Int),
    (chargeLoop avail l).1.length + (chargeLoop avail l).2.1 = l.length
    ∧ (chargeLoop avail l).2.2 = min avail.toNat l.length := by
  intro l
  induction l with
  | nil => intro avail; simp [chargeLoop]
  | cons t rest ih =>
    intro avail
    by_cases h0 : 0 < avail
    · have := ih (avail - 1)
      by_cases ht : t - 1 ≤ 0
      · simp only [chargeLoop, if_pos h0, if_pos ht, List.length_cons]
        constructor
        · omega
        · have h2 := this.2; omega
      · simp only [chargeLoop, if_pos h0, if_neg ht, List.length_cons]
        constructor
        · omega
        · have h2 := this.2; omega
    · have hz : avail.toNat = 0 := by omega
      simp [chargeLoop, if_neg h0, hz]

/-! ## Helper lemmas about the service loop -/

/-- Characterization of the service loop: exactly
`min bays (min queue⁺ ready⁺)` swaps happen, each moving one battery from
ready to charging (entering at `ct` minutes), serving one queued vehicle
and counting one fulfilled swap. -/
lemma serviceLoop_spec (ct : Int) : ∀ (b : Nat) (s : Station),
    serviceLoop ct b s =
      { s with
        inventory_ready :=
          s.inventory_ready - (min b (min s.queue_length.toNat s.inventory_ready.toNat) : Nat)
        queue_length :=
          s.queue_length - (min b (min s.queue_length.toNat s.inventory_ready.toNat) : Nat)
        total_swaps_fulfilled :=
          s.total_swaps_fulfilled + (min b (min s.queue_length.toNat s.inventory_ready.toNat) : Nat)
        inventory_charging :=
          s.inventory_charging
            ++ List.replicate (min b (min s.queue_length.toNat s.inventory_ready.toNat)) ct } := by
  intro b
  induction b with
  | zero => intro s; simp [serviceLoop]
  | succ b ih =>
    intro s
    by_cases hq : 0 < s.queue_length
    · by_cases hi : 0 < s.inventory_ready
      · rw [serviceLoop, if_pos hq, if_pos hi, ih]
        have hmin : min b (min (s.queue_length - 1).toNat (s.inventory_ready - 1).toNat) + 1
            = min (b + 1) (min s.queue_length.toNat s.inventory_ready.toNat) := by omega
        rw [← hmin]
        cases s with
        | mk sid slots chg inv ready charging q swaps lost wait idle util =>
          simp only [Station.mk.injEq, and_true, true_and]
          refine ⟨by push_cast; omega, ?_, by push_cast; omega, by push_cast; omega⟩
          rw [List.append_assoc, List.replicate_succ]
          rfl
      · have hz : min (b + 1) (min s.queue_length.toNat s.inventory_ready.toNat) = 0 := by
          omega
        rw [serviceLoop, if_pos hq, if_neg hi]
        simp [hz]
    · have hz : min (b + 1) (min s.queue_length.toNat s.inventory_ready.toNat) = 0 := by
        omega
      rw [serviceLoop, if_neg hq]
      simp [hz]

/-! ## C1: admission policy for arrivals -/

/-- C1: in `_simulate_station_step` the arrival is decided on the state
reached after charging and idle accounting and before service (first
conjunct: the step factors through `arrivalPhase` at exactly that point,
with a single Bernoulli outcome per station-minute).  A successful draw
is counted as a lost swap if and only if `queue_length > 10` or
(`queue_length > 5` and `inventory_ready = 0`) at that moment; otherwise
`queue_length` grows by exactly 1; inventory is untouched; and the lost
and queue counters together grow by at most one per minute. -/
theorem C1_arrival_admission (cfg : SimConfig) (hour dm u : ℚ) (s t : Station) (arrived : Bool) :
    _simulate_station_step cfg hour dm u s =
      waitPhase (servicePhase (CHARGE_TIME_MINUTES cfg)
        (arrivalPhase (idlePhase (chargingPhase s))
          (decide (u < cfg.arrivalProb (idlePhase (chargingPhase s)) hour * dm))))
    ∧ (arrivalPhase t arrived).lost_swaps =
        t.lost_swaps +
          (if arrived = true ∧ (10 < t.queue_length ∨ (5 < t.queue_length ∧ t.inventory_ready = 0))
            then 1 else 0)
    ∧ (arrivalPhase t arrived).queue_length =
        t.queue_length +
          (if arrived = true ∧ ¬ (10 < t.queue_length ∨ (5 < t.queue_length ∧ t.inventory_ready = 0))
            then 1 else 0)
    ∧ (arrivalPhase t arrived).inventory_ready = t.inventory_ready
    ∧ ((arrivalPhase t arrived).lost_swaps - t.lost_swaps)
        + ((arrivalPhase t arrived).queue_length - t.queue_length) ≤ 1 := by
  refine ⟨rfl, ?_, ?_, ?_, ?_⟩ <;>
    · cases arrived with
      | false => simp [arrivalPhase]
      | true =>
        by_cases hc : 10 < t.queue_length ∨ (5 < t.queue_length ∧ t.inventory_ready = 0) <;>
          simp [arrivalPhase, hc]

/-! ## C2: the charging phase -/

/-- C2: the charging phase first sorts the charging list ascending (the
list it processes is a sorted permutation of the stored one); exactly
the first `min chargers |list|` entries are decremented by one minute,
entries whose time reaches zero leave the list and each increments
`inventory_ready`, the remaining entries are carried over unchanged, and
`charger_utilization_minutes` grows by exactly
`min chargers |list|` (for a non-negative charger count). -/
theorem C2_charging_phase (s : Station) (h : 0 ≤ s.chargers) :
    chargingPhase s =
      { s with
        inventory_charging :=
          (((s.inventory_charging.insertionSort (· ≤ ·)).take s.chargers.toNat).map
              (fun t => t - 1)).filter (fun t => decide (0 < t))
            ++ (s.inventory_charging.insertionSort (· ≤ ·)).drop s.chargers.toNat
        inventory_ready :=
          s.inventory_ready +
            ((((s.inventory_charging.insertionSort (· ≤ ·)).take s.chargers.toNat).map
                (fun t => t - 1)).countP (fun t => decide (t ≤ 0)) : Nat)
        charger_utilization_minutes :=
          s.charger_utilization_minutes +
            ((min s.chargers.toNat s.inventory_charging.length : Nat) : Int) }
    ∧ List.Sorted (· ≤ ·) (s.inventory_charging.insertionSort (· ≤ ·))
    ∧ (s.inventory_charging.insertionSort (· ≤ ·)).Perm s.inventory_charging := by
  refine ⟨?_, List.sorted_insertionSort _ _, List.perm_insertionSort _ _⟩
  have hlen : (s.inventory_charging.insertionSort (· ≤ ·)).length
      = s.inventory_charging.length :=
    (List.perm_insertionSort _ _).length_eq
  simp only [chargingPhase, chargeLoop_spec _ _ h, hlen]

/-- Concrete station used by the C2 witness. -/
def stC2 : Station :=
  { id := "W2", total_slots := 6, chargers := 2, initial_inventory := 4,
    inventory_ready := 1, inventory_charging := [3, 1, 5], queue_length := 0,
    total_swaps_fulfilled := 0, lost_swaps := 0, total_wait_time_minutes := 0,
    idle_inventory_minutes := 0, charger_utilization_minutes := 0 }

/-- Witness for C2 at a concrete station: chargers = 2, charging list
[3, 1, 5]; sorted to [1, 3, 5], the first two entries decrement, the 1
completes into ready inventory, the 5 is carried over, utilization grows
by 2. -/
theorem C2_charging_phase_witness :
    (0 : Int) ≤ stC2.chargers ∧
      chargingPhase stC2 =
        { stC2 with
          inventory_charging := [2, 5]
          inventory_ready := 2
          charger_utilization_minutes := 2 } :=
  ⟨by decide, ((C2_charging_phase stC2 (by decide)).1).trans (by decide)⟩

/-! ## C3: the service phase -/

/-- C3: the service phase performs exactly
`min 4 (min queue ready)` swaps — at most 4 regardless of station size,
stopping as soon as `inventory_ready` hits zero even with bays and queue
remaining; each swap moves one battery from ready to a fresh charging
entry at the configured charge time, serves one queued vehicle and
counts one fulfilled swap; the configured charge time defaults to 60
when unconfigured; and the wait accumulator afterwards grows by the
post-service queue length. -/
theorem C3_service_phase (ct : Int) (f : Station → ℚ → ℚ) (s : Station) :
    servicePhase ct s =
      { s with
        inventory_ready :=
          s.inventory_ready - (min 4 (min s.queue_length.toNat s.inventory_ready.toNat) : Nat)
        queue_length :=
          s.queue_length - (min 4 (min s.queue_length.toNat s.inventory_ready.toNat) : Nat)
        total_swaps_fulfilled :=
          s.total_swaps_fulfilled + (min 4 (min s.queue_length.toNat s.inventory_ready.toNat) : Nat)
        inventory_charging :=
          s.inventory_charging
            ++ List.replicate (min 4 (min s.queue_length.toNat s.inventory_ready.toNat)) ct }
    ∧ (waitPhase s).total_wait_time_minutes = s.total_wait_time_minutes + s.queue_length
    ∧ CHARGE_TIME_MINUTES { avgChargeTime := none, arrivalProb := f } = 60 :=
  ⟨serviceLoop_spec ct 4 s, rfl, rfl⟩

/-! ## Machinery: propagating a station predicate through a run -/

/-- Every station value in the map satisfies `P`. -/
def MapAll (P : Station → Prop) (m : StationMap) : Prop :=
  ∀ p ∈ m, P p.2

lemma runMinutes_succ (cfg : SimConfig) (ivs : List Intervention) (trace : Trace)
    (m : StationMap) (k : Nat) :
    runMinutes cfg ivs trace m (k + 1)
      = stepMinute cfg ivs trace k (runMinutes cfg ivs trace m k) := by
  simp [runMinutes, List.range_succ]

lemma MapAll_stepMinute {P Q : Station → Prop} (cfg : SimConfig) (ivs : List Intervention)
    (trace : Trace) (j : Nat) {m : StationMap}
    (h : ∀ hour dm u s, P s → Q (_simulate_station_step cfg hour dm u s))
    (hm : MapAll P m) : MapAll Q (stepMinute cfg ivs trace j m) := by
  intro p hp
  simp only [stepMinute, List.mem_map] at hp
  obtain ⟨q, hq, rfl⟩ := hp
  exact h _ _ _ _ (hm q hq)

lemma MapAll_runMinutes (P : Nat → Station → Prop) (cfg : SimConfig)
    (ivs : List Intervention) (trace : Trace) (m : StationMap)
    (h : ∀ j hour dm u s, P j s → P (j + 1) (_simulate_station_step cfg hour dm u s))
    (hm : MapAll (P 0) m) : ∀ k, MapAll (P k) (runMinutes cfg ivs trace m k) := by
  intro k
  induction k with
  | zero => simpa [runMinutes] using hm
  | succ k ih =>
    rw [runMinutes_succ]
    exact MapAll_stepMinute cfg ivs trace k (h k) ih

lemma MapAll_dictInsert {P : Station → Prop} (k : String) (v : Station) :
    ∀ {m : StationMap}, P v → MapAll P m → MapAll P (dictInsert k v m) := by
  intro m
  induction m with
  | nil => intro hv _ p hp; simp [dictInsert] at hp; rw [hp]; exact hv
  | cons q rest ih =>
    intro hv hm p hp
    simp only [dictInsert] at hp
    by_cases hk : q.1 = k
    · rw [if_pos hk] at hp
      rcases List.mem_cons.mp hp with h1 | h2
      · rw [h1]; exact hv
      · exact hm p (List.mem_cons_of_mem _ h2)
    · rw [if_neg hk] at hp
      rcases List.mem_cons.mp hp with h1 | h2
      · rw [h1]
        exact hm ⟨q.1, q.2⟩ (List.mem_cons_self _ _)
      · exact ih hv (fun r hr => hm r (List.mem_cons_of_mem _ hr)) p h2

lemma MapAll_dictErase {P : Station → Prop} (k : String) :
    ∀ {m : StationMap}, MapAll P m → MapAll P (dictErase k m) := by
  intro m
  induction m with
  | nil => intro hm p hp; simp [dictErase] at hp
  | cons q rest ih =>
    intro hm p hp
    simp only [dictErase] at hp
    by_cases hk : q.1 = k
    · rw [if_pos hk] at hp
      exact hm p (List.mem_cons_of_mem _ hp)
    · rw [if_neg hk] at hp
      rcases List.mem_cons.mp hp with h1 | h2
      · rw [h1]; exact hm ⟨q.1, q.2⟩ (List.mem_cons_self _ _)
      · exact ih (fun r hr => hm r (List.mem_cons_of_mem _ hr)) p h2

lemma MapAll_applyIntervention {P : Station → Prop}
    (hchg : ∀ s c, P s → P { s with chargers := c }) :
    ∀ (iv : Intervention) (m : StationMap),
      (∀ d, iv = Intervention.add_station d → P (_init_station_state d)) →
      MapAll P m → MapAll P (applyIntervention m iv) := by
  intro iv m hadd hm
  cases iv with
  | add_station d =>
    exact MapAll_dictInsert _ _ (hadd d rfl) hm
  | remove_station sid =>
    simp only [applyIntervention]
    split
    · exact MapAll_dictErase _ hm
    · exact hm
  | modify_chargers sid c =>
    simp only [applyIntervention]
    split
    · intro p hp
      simp only [List.mem_map] at hp
      obtain ⟨q, hq, hpe⟩ := hp
      by_cases hqs : q.1 = sid
      · rw [if_pos hqs] at hpe
        rw [← hpe]
        exact hchg q.2 c (hm q hq)
      · rw [if_neg hqs] at hpe
        rw [← hpe]
        exact hm q hq
    · exact hm
  | shift_demand f w =>
    exact hm

lemma MapAll_applyStatic {P : Station → Prop}
    (hchg : ∀ s c, P s → P { s with chargers := c }) :
    ∀ (ivs : List Intervention) (m : StationMap),
      (∀ d, Intervention.add_station d ∈ ivs → P (_init_station_state d)) →
      MapAll P m → MapAll P (_apply_static_interventions m ivs) := by
  intro ivs
  induction ivs with
  | nil => intro m _ hm; exact hm
  | cons iv rest ih =>
    intro m hadd hm
    simp only [_apply_static_interventions, List.foldl_cons]
    exact ih _ (fun d hd => hadd d (List.mem_cons_of_mem _ hd))
      (MapAll_applyIntervention hchg iv m
        (fun d hd => hadd d (hd ▸ List.mem_cons_self _ _)) hm)

lemma MapAll_buildStations {P : Station → Prop} :
    ∀ (l : List StationData),
      (∀ d ∈ l, P (_init_station_state d)) → MapAll P (buildStations l) := by
  have key : ∀ (l : List StationData) (m : StationMap),
      (∀ d ∈ l, P (_init_station_state d)) → MapAll P m →
      MapAll P (l.foldl (fun acc d => dictInsert d.id (_init_station_state d) acc) m) := by
    intro l
    induction l with
    | nil => intro m _ hm; exact hm
    | cons d rest ih =>
      intro m hl hm
      simp only [List.foldl_cons]
      exact ih _ (fun e he => hl e (List.mem_cons_of_mem _ he))
        (MapAll_dictInsert _ _ (hl d (List.mem_cons_self _ _)) hm)
  intro l hl
  exact key l [] hl (fun p hp => absurd hp (List.not_mem_nil p))

/-! ## Per-phase preservation lemmas -/

lemma chargingPhase_ready (s : Station) :
    (chargingPhase s).inventory_ready =
      s.inventory_ready
        + ((chargeLoop s.chargers (s.inventory_charging.insertionSort (· ≤ ·))).2.1 : Nat) := rfl

lemma chargingPhase_len (s : Station) :
    (chargingPhase s).inventory_charging.length
        + (chargeLoop s.chargers (s.inventory_charging.insertionSort (· ≤ ·))).2.1
      = s.inventory_charging.length := by
  have h := (chargeLoop_counts (s.inventory_charging.insertionSort (· ≤ ·)) s.chargers).1
  have hlen : (s.inventory_charging.insertionSort (· ≤ ·)).length
      = s.inventory_charging.length := (List.perm_insertionSort _ _).length_eq
  simpa [chargingPhase, hlen] using h

lemma chargingPhase_util (s : Station) :
    (chargingPhase s).charger_utilization_minutes =
      s.charger_utilization_minutes
        + ((min s.chargers.toNat s.inventory_charging.length : Nat) : Int) := by
  have h := (chargeLoop_counts (s.inventory_charging.insertionSort (· ≤ ·)) s.chargers).2
  have hlen : (s.inventory_charging.insertionSort (· ≤ ·)).length
      = s.inventory_charging.length := (List.perm_insertionSort _ _).length_eq
  simp only [chargingPhase]
  rw [h, hlen]

lemma idlePhase_fields (s : Station) :
    (idlePhase s).inventory_ready = s.inventory_ready
    ∧ (idlePhase s).queue_length = s.queue_length
    ∧ (idlePhase s).inventory_charging = s.inventory_charging
    ∧ (idlePhase s).chargers = s.chargers
    ∧ (idlePhase s).charger_utilization_minutes = s.charger_utilization_minutes
    ∧ (idlePhase s).initial_inventory = s.initial_inventory := by
  unfold idlePhase
  split <;> exact ⟨rfl, rfl, rfl, rfl, rfl, rfl⟩

lemma arrivalPhase_fields (s : Station) (b : Bool) :
    (arrivalPhase s b).inventory_ready = s.inventory_ready
    ∧ (arrivalPhase s b).inventory_charging = s.inventory_charging
    ∧ (arrivalPhase s b).chargers = s.chargers
    ∧ (arrivalPhase s b).charger_utilization_minutes = s.charger_utilization_minutes
    ∧ (arrivalPhase s b).initial_inventory = s.initial_inventory
    ∧ s.queue_length ≤ (arrivalPhase s b).queue_length
    ∧ (arrivalPhase s b).queue_length ≤ s.queue_length + 1 := by
  unfold arrivalPhase
  split
  · split <;> refine ⟨rfl, rfl, rfl, rfl, rfl, by dsimp only; omega, by dsimp only; omega⟩
  · exact ⟨rfl, rfl, rfl, rfl, rfl, by omega, by omega⟩

lemma servicePhase_fields (ct : Int) (s : Station) :
    (servicePhase ct s).inventory_ready
        = s.inventory_ready - (min 4 (min s.queue_length.toNat s.inventory_ready.toNat) : Nat)
    ∧ (servicePhase ct s).queue_length
        = s.queue_length - (min 4 (min s.queue_length.toNat s.inventory_ready.toNat) : Nat)
    ∧ (servicePhase ct s).inventory_charging.length
        = s.inventory_charging.length + min 4 (min s.queue_length.toNat s.inventory_ready.toNat)
    ∧ (servicePhase ct s).chargers = s.chargers
    ∧ (servicePhase ct s).charger_utilization_minutes = s.charger_utilization_minutes
    ∧ (servicePhase ct s).initial_inventory = s.initial_inventory := by
  rw [servicePhase, serviceLoop_spec]
  refine ⟨rfl, rfl, ?_, rfl, rfl, rfl⟩
  simp [List.length_append]

lemma waitPhase_fields (s : Station) :
    (waitPhase s).inventory_ready = s.inventory_ready
    ∧ (waitPhase s).queue_length = s.queue_length
    ∧ (waitPhase s).inventory_charging = s.inventory_charging
    ∧ (waitPhase s).chargers = s.chargers
    ∧ (waitPhase s).charger_utilization_minutes = s.charger_utilization_minutes
    ∧ (waitPhase s).initial_inventory = s.initial_inventory :=
  ⟨rfl, rfl, rfl, rfl, rfl, rfl⟩

/-- One whole station-minute keeps `inventory_ready` and `queue_length`
non-negative. -/
lemma step_nonneg (cfg : SimConfig) (hour dm u : ℚ) (s : Station)
    (h : 0 ≤ s.inventory_ready ∧ 0 ≤ s.queue_length) :
    0 ≤ (_simulate_station_step cfg hour dm u s).inventory_ready
    ∧ 0 ≤ (_simulate_station_step cfg hour dm u s).queue_length := by
  obtain ⟨hr, hq⟩ := h
  have h1r : 0 ≤ (chargingPhase s).inventory_ready := by
    rw [chargingPhase_ready]; omega
  have h1q : (chargingPhase s).queue_length = s.queue_length := rfl
  have h2 := idlePhase_fields (chargingPhase s)
  have h3 := arrivalPhase_fields (idlePhase (chargingPhase s))
    (decide (u < cfg.arrivalProb (idlePhase (chargingPhase s)) hour * dm))
  set s3 := arrivalPhase (idlePhase (chargingPhase s))
    (decide (u < cfg.arrivalProb (idlePhase (chargingPhase s)) hour * dm)) with hs3
  have h3r : 0 ≤ s3.inventory_ready := by rw [h3.1, h2.1]; exact h1r
  have h3q : 0 ≤ s3.queue_length := by
    have := h3.2.2.2.2.2.1
    rw [h2.2.1, h1q] at this
    omega
  have h4 := servicePhase_fields (CHARGE_TIME_MINUTES cfg) s3
  have h5 := waitPhase_fields (servicePhase (CHARGE_TIME_MINUTES cfg) s3)
  show 0 ≤ (waitPhase (servicePhase (CHARGE_TIME_MINUTES cfg) s3)).inventory_ready
    ∧ 0 ≤ (waitPhase (servicePhase (CHARGE_TIME_MINUTES cfg) s3)).queue_length
  rw [h5.1, h5.2.1, h4.1, h4.2.1]
  omega

/-- One whole station-minute preserves battery conservation:
`inventory_ready + |inventory_charging| = initial_inventory`. -/
lemma step_conserve (cfg : SimConfig) (hour dm u : ℚ) (s : Station)
    (h : s.inventory_ready + (s.inventory_charging.length : Int) = s.initial_inventory) :
    (_simulate_station_step cfg hour dm u s).inventory_ready
        + ((_simulate_station_step cfg hour dm u s).inventory_charging.length : Int)
      = (_simulate_station_step cfg hour dm u s).initial_inventory := by
  have h1r := chargingPhase_ready s
  have h1l := chargingPhase_len s
  have h1i : (chargingPhase s).initial_inventory = s.initial_inventory := rfl
  have h1 : (chargingPhase s).inventory_ready
      + ((chargingPhase s).inventory_charging.length : Int)
      = (chargingPhase s).initial_inventory := by
    rw [h1r, h1i]; omega
  have h2f := idlePhase_fields (chargingPhase s)
  have h2 : (idlePhase (chargingPhase s)).inventory_ready
      + ((idlePhase (chargingPhase s)).inventory_charging.length : Int)
      = (idlePhase (chargingPhase s)).initial_inventory := by
    rw [h2f.1, h2f.2.2.1, h2f.2.2.2.2.2]; exact h1
  have h3f := arrivalPhase_fields (idlePhase (chargingPhase s))
    (decide (u < cfg.arrivalProb (idlePhase (chargingPhase s)) hour * dm))
  set s3 := arrivalPhase (idlePhase (chargingPhase s))
    (decide (u < cfg.arrivalProb (idlePhase (chargingPhase s)) hour * dm)) with hs3
  have h3 : s3.inventory_ready + (s3.inventory_charging.length : Int) = s3.initial_inventory := by
    rw [h3f.1, h3f.2.1, h3f.2.2.2.2.1]; exact h2
  have h4f := servicePhase_fields (CHARGE_TIME_MINUTES cfg) s3
  have h5f := waitPhase_fields (servicePhase (CHARGE_TIME_MINUTES cfg) s3)
  show (waitPhase (servicePhase (CHARGE_TIME_MINUTES cfg) s3)).inventory_ready
      + (((waitPhase (servicePhase (CHARGE_TIME_MINUTES cfg) s3)).inventory_charging.length : Int))
    = (waitPhase (servicePhase (CHARGE_TIME_MINUTES cfg) s3)).initial_inventory
  rw [h5f.1, h5f.2.2.1, h5f.2.2.2.2.2, h4f.1, h4f.2.2.1, h4f.2.2.2.2.2]
  push_cast
  omega

/-- One whole station-minute leaves `chargers` unchanged and grows
`charger_utilization_minutes` by at most `max chargers 0`, keeping it
non-negative. -/
lemma step_util (cfg : SimConfig) (hour dm u : ℚ) (s : Station) (j : Nat)
    (h : 0 ≤ s.charger_utilization_minutes
      ∧ s.charger_utilization_minutes ≤ (j : Int) * max s.chargers 0) :
    0 ≤ (_simulate_station_step cfg hour dm u s).charger_utilization_minutes
    ∧ (_simulate_station_step cfg hour dm u s).charger_utilization_minutes
        ≤ ((j : Int) + 1) * max (_simulate_station_step cfg hour dm u s).chargers 0
    ∧ (_simulate_station_step cfg hour dm u s).chargers = s.chargers := by
  obtain ⟨h0, hb⟩ := h
  have h1u := chargingPhase_util s
  have h1c : (chargingPhase s).chargers = s.chargers := rfl
  have hact : ((min s.chargers.toNat s.inventory_charging.length : Nat) : Int)
      ≤ max s.chargers 0 := by omega
  have h2f := idlePhase_fields (chargingPhase s)
  have h3f := arrivalPhase_fields (idlePhase (chargingPhase s))
    (decide (u < cfg.arrivalProb (idlePhase (chargingPhase s)) hour * dm))
  set s3 := arrivalPhase (idlePhase (chargingPhase s))
    (decide (u < cfg.arrivalProb (idlePhase (chargingPhase s)) hour * dm)) with hs3
  have h4f := servicePhase_fields (CHARGE_TIME_MINUTES cfg) s3
  have h5f := waitPhase_fields (servicePhase (CHARGE_TIME_MINUTES cfg) s3)
  have hu : (_simulate_station_step cfg hour dm u s).charger_utilization_minutes
      = s.charger_utilization_minutes
        + ((min s.chargers.toNat s.inventory_charging.length : Nat) : Int) := by
    show (waitPhase (servicePhase (CHARGE_TIME_MINUTES cfg) s3)).charger_utilization_minutes = _
    rw [h5f.2.2.2.2.1, h4f.2.2.2.2.1, h3f.2.2.2.1, h2f.2.2.2.2.1, h1u]
  have hc : (_simulate_station_step cfg hour dm u s).chargers = s.chargers := by
    show (waitPhase (servicePhase (CHARGE_TIME_MINUTES cfg) s3)).chargers = _
    rw [h5f.2.2.2.1, h4f.2.2.2.1, h3f.2.2.1, h2f.2.2.2.1, h1c]
  refine ⟨?_, ?_, hc⟩
  · rw [hu]; omega
  · rw [hu, hc]
    have : ((j : Int) + 1) * max s.chargers 0 = (j : Int) * max s.chargers 0 + max s.chargers 0 := by
      ring
    omega

/-! ## C4: non-negative inventory and queue through a whole run -/

/-- The input record declares a non-negative initial inventory (after
the default of 10 is applied). -/
def nonnegInventory (d : StationData) : Bool :=
  decide (0 ≤ d.initial_inventory.getD 10)

/-- Every `add_station` intervention carries a non-negative initial
inventory. -/
def addNonneg : Intervention → Bool
  | Intervention.add_station d => nonnegInventory d
  | _ => true

/-- C4: for every configuration, trace, topology and intervention list
with non-negative initial inventories, after any number `k ≤ 1440` of
minute-steps every station in the map has `inventory_ready ≥ 0` and
`queue_length ≥ 0`. -/
theorem C4_nonnegative_counts (cfg : SimConfig) (trace : Trace) (topo : List StationData)
    (ivs : List Intervention) (k : Nat) (hk : k ≤ 24 * 60)
    (h1 : topo.all nonnegInventory = true) (h2 : ivs.all addNonneg = true)
    (p : String × Station)
    (hp : p ∈ runMinutes cfg ivs trace (_apply_static_interventions (buildStations topo) ivs) k) :
    0 ≤ p.2.inventory_ready ∧ 0 ≤ p.2.queue_length := by
  have hbuild : MapAll (fun s => 0 ≤ s.inventory_ready ∧ 0 ≤ s.queue_length)
      (buildStations topo) := by
    apply MapAll_buildStations
    intro d hd
    have hgd := List.all_eq_true.mp h1 d hd
    unfold nonnegInventory at hgd
    exact ⟨by simpa using hgd, le_refl 0⟩
  have happly : MapAll (fun s => 0 ≤ s.inventory_ready ∧ 0 ≤ s.queue_length)
      (_apply_static_interventions (buildStations topo) ivs) := by
    apply MapAll_applyStatic (fun s c hs => hs) ivs _ _ hbuild
    intro d hd
    have hgd := List.all_eq_true.mp h2 _ hd
    unfold addNonneg nonnegInventory at hgd
    exact ⟨by simpa using hgd, le_refl 0⟩
  have hrun := MapAll_runMinutes (fun _ s => 0 ≤ s.inventory_ready ∧ 0 ≤ s.queue_length)
    cfg ivs trace _ (fun j hour dm u s hs => step_nonneg cfg hour dm u s hs) happly k
  exact hrun p hp

/-! ## C10: battery conservation through a whole run -/

/-- C10: at the end of every minute-step of a run, each station's ready
inventory plus its number of charging batteries equals its (defaulted)
initial inventory: swaps move one battery ready→charging, completions
move one battery charging→ready, and nothing else creates or destroys a
battery. -/
theorem C10_battery_conservation (cfg : SimConfig) (trace : Trace) (topo : List StationData)
    (ivs : List Intervention) (k : Nat) (hk : k ≤ 24 * 60)
    (p : String × Station)
    (hp : p ∈ runMinutes cfg ivs trace (_apply_static_interventions (buildStations topo) ivs) k) :
    p.2.inventory_ready + (p.2.inventory_charging.length : Int) = p.2.initial_inventory := by
  have hinit : ∀ d : StationData,
      (_init_station_state d).inventory_ready
          + (((_init_station_state d).inventory_charging.length : Int))
        = (_init_station_state d).initial_inventory := by
    intro d; simp [_init_station_state]
  have hbuild : MapAll
      (fun s => s.inventory_ready + (s.inventory_charging.length : Int) = s.initial_inventory)
      (buildStations topo) :=
    MapAll_buildStations topo (fun d _ => hinit d)
  have happly : MapAll
      (fun s => s.inventory_ready + (s.inventory_charging.length : Int) = s.initial_inventory)
      (_apply_static_interventions (buildStations topo) ivs) :=
    MapAll_applyStatic (fun s c hs => hs) ivs _ (fun d _ => hinit d) hbuild
  have hrun := MapAll_runMinutes
    (fun _ s => s.inventory_ready + (s.inventory_charging.length : Int) = s.initial_inventory)
    cfg ivs trace _ (fun j hour dm u s hs => step_conserve cfg hour dm u s hs) happly k
  exact hrun p hp

/-! ## C5: the per-minute demand modifier -/

/-- The factors of the `shift_demand` interventions active at the given
(fractional) hour, in list order. -/
def shiftFactors (hour : ℚ) (ivs : List Intervention) : List ℚ :=
  ivs.filterMap fun a =>
    match a with
    | Intervention.shift_demand f w => if w.1 ≤ hour ∧ hour < w.2 then some f else none
    | _ => none

lemma demand_foldl (hour : ℚ) : ∀ (ivs : List Intervention) (acc : ℚ),
    ivs.foldl
        (fun acc a =>
          match a with
          | Intervention.shift_demand f w => if w.1 ≤ hour ∧ hour < w.2 then acc * f else acc
          | _ => acc)
        acc
      = acc * (shiftFactors hour ivs).prod := by
  intro ivs
  induction ivs with
  | nil => intro acc; simp [shiftFactors]
  | cons iv rest ih =>
    intro acc
    cases iv with
    | shift_demand f w =>
      by_cases hw : w.1 ≤ hour ∧ hour < w.2
      · simp only [List.foldl_cons, shiftFactors, List.filterMap_cons, if_pos hw, ih]
        simp only [shiftFactors, List.prod_cons]
        ring
      · simp only [List.foldl_cons, shiftFactors, List.filterMap_cons, if_neg hw, ih]
    | add_station d => simp only [List.foldl_cons, shiftFactors, List.filterMap_cons, ih]
    | remove_station sid => simp only [List.foldl_cons, shiftFactors, List.filterMap_cons, ih]
    | modify_chargers sid c => simp only [List.foldl_cons, shiftFactors, List.filterMap_cons, ih]

/-- C5 (amended): the modifier of minute `m` is the product, starting
from 1, of the factors of exactly those `shift_demand` interventions
whose window `[start, end)` contains the fractional hour `m / 60` (for
integer window endpoints this coincides with containing
`floor (m / 60)`); the modifier is computed once per minute and the same
value is passed to every station's step, where it multiplies that
station's arrival probability. -/
theorem C5_demand_modifier (minute : Nat) (ivs : List Intervention) (cfg : SimConfig)
    (trace : Trace) (m : StationMap) :
    _get_current_demand_modifier ((minute : ℚ) / 60) ivs
        = (shiftFactors ((minute : ℚ) / 60) ivs).prod
    ∧ stepMinute cfg ivs trace minute m
        = m.map (fun p => (p.1, _simulate_station_step cfg ((minute : ℚ) / 60)
            (_get_current_demand_modifier ((minute : ℚ) / 60) ivs) (trace minute p.1) p.2))
    ∧ ∀ (hour dm u : ℚ) (s : Station),
        _simulate_station_step cfg hour dm u s
          = waitPhase (servicePhase (CHARGE_TIME_MINUTES cfg)
              (arrivalPhase (idlePhase (chargingPhase s))
                (decide (u < cfg.arrivalProb (idlePhase (chargingPhase s)) hour * dm)))) :=
  ⟨by simpa [_get_current_demand_modifier] using demand_foldl ((minute : ℚ) / 60) ivs 1,
   rfl, fun _ _ _ _ => rfl⟩

/-- Modelled from the spec's words (§4.2), for comparison with the
source function: the claimed modifier accumulates the factor of every
`shift_demand` whose window contains the floored hour
`floor (minute / 60)`. -/
def specDemandModifierFloor (minute : Nat) (ivs : List Intervention) : ℚ :=
  ivs.foldl
    (fun acc a =>
      match a with
      | Intervention.shift_demand f w =>
        if w.1 ≤ ((minute / 60 : Nat) : ℚ) ∧ ((minute / 60 : Nat) : ℚ) < w.2 then acc * f
        else acc
      | _ => acc)
    1

/-- C5 counterexample: at minute 510 (fractional hour 8.5) with a single
`shift_demand` of factor 2 on the window [8.5, 9), the code multiplies
the factor in (modifier 2), while the claimed floored-hour rule
(`floor(510/60) = 8`, and 8 is not in [8.5, 9)) would leave the
modifier at 1. -/
theorem C5_counterexample :
    _get_current_demand_modifier ((510 : ℚ) / 60) [Intervention.shift_demand 2 (17 / 2, 9)] = 2
    ∧ specDemandModifierFloor 510 [Intervention.shift_demand 2 (17 / 2, 9)] = 1
    ∧ (2 : ℚ) ≠ 1 := by
  refine ⟨?_, ?_, by norm_num⟩
  · simp only [_get_current_demand_modifier, List.foldl_cons, List.foldl_nil]
    rw [if_pos (by norm_num)]
    norm_num
  · simp only [specDemandModifierFloor, List.foldl_cons, List.foldl_nil]
    rw [if_neg (by norm_num)]

/-! ## C6: add-then-remove of a station id -/

lemma containsKey_dictInsert (k : String) (v : Station) :
    ∀ m : StationMap, containsKey k (dictInsert k v m) = true := by
  intro m
  induction m with
  | nil => simp [dictInsert, containsKey]
  | cons q rest ih =>
    by_cases hq : q.1 = k
    · simp [dictInsert, hq, containsKey]
    · simp only [dictInsert, if_neg hq, containsKey, List.any_cons]
      simp only [containsKey] at ih
      simp [ih, hq]

lemma dictErase_dictInsert (k : String) (v : Station) :
    ∀ m : StationMap, containsKey k m = false → dictErase k (dictInsert k v m) = m := by
  intro m
  induction m with
  | nil => intro _; simp [dictInsert, dictErase]
  | cons q rest ih =>
    intro h
    simp only [containsKey, List.any_cons, Bool.or_eq_false_iff] at h
    have hq : ¬ q.1 = k := by
      intro he
      exact absurd (decide_eq_true he) (by simp [h.1])
    simp only [dictInsert, if_neg hq, dictErase, if_neg hq]
    rw [ih (by simpa [containsKey] using h.2)]

/-- Concrete topology entry used by the C6 counterexample. -/
def dA : StationData := { id := "A" }

set_option maxRecDepth 10000 in
/-- C6 counterexample: if the id already exists in the map built from
the topology, `add_station` overwrites it and the following
`remove_station` deletes it — so the pair does not restore the original
map (the pre-existing station "A" is gone), unlike the empty
intervention list. -/
theorem C6_counterexample :
    _apply_static_interventions (buildStations [dA])
        [Intervention.add_station dA, Intervention.remove_station "A"]
      ≠ _apply_static_interventions (buildStations [dA]) [] := by
  decide

/-- C6 (amended): provided the station id is absent from the map at the
point the pair is applied, an `add_station` immediately followed by
`remove_station` of the same id leaves the station map identical to the
map produced without the pair, for any surrounding interventions. -/
theorem C6_add_remove (topo : List StationData) (d : StationData) (L1 L2 : List Intervention)
    (h : containsKey d.id (_apply_static_interventions (buildStations topo) L1) = false) :
    _apply_static_interventions (buildStations topo)
        (L1 ++ [Intervention.add_station d, Intervention.remove_station d.id] ++ L2)
      = _apply_static_interventions (buildStations topo) (L1 ++ L2) := by
  simp only [_apply_static_interventions, List.foldl_append, List.foldl_cons, List.foldl_nil]
  congr 1
  show applyIntervention
      (applyIntervention (List.foldl applyIntervention (buildStations topo) L1)
        (Intervention.add_station d))
      (Intervention.remove_station d.id)
    = List.foldl applyIntervention (buildStations topo) L1
  simp only [applyIntervention]
  rw [containsKey_dictInsert, if_pos rfl]
  exact dictErase_dictInsert d.id _ _
    (by simpa [_apply_static_interventions] using h)

/-- Witness for the amended C6 on the empty topology. -/
theorem C6_add_remove_witness :
    _apply_static_interventions (buildStations [])
        ([] ++ [Intervention.add_station dA, Intervention.remove_station dA.id] ++ [])
      = _apply_static_interventions (buildStations []) ([] ++ []) :=
  C6_add_remove [] dA [] [] (by decide)

/-! ## C9: rerunning the simulation is deterministic and stateless -/

lemma run_simulation_fst (cfg : SimConfig) (trace : Trace) (t : CityDigitalTwin)
    (ivs : List Intervention) :
    (run_simulation cfg trace t ivs).1
      = _generate_report (runMinutes cfg ivs trace
          (_apply_static_interventions (buildStations t.initial_state) ivs) (24 * 60)) := by
  unfold run_simulation
  dsimp only

lemma run_simulation_snd_init (cfg : SimConfig) (trace : Trace) (t : CityDigitalTwin)
    (ivs : List Intervention) :
    (run_simulation cfg trace t ivs).2.initial_state = t.initial_state := by
  unfold run_simulation
  dsimp only

/-- C9: `run_simulation` rebuilds the station map from the deep-copied
initial topology at the start of every call and never writes
`initial_state`, so with the same interventions and the same random
trace a second run on the post-run twin returns the identical report,
and the stored topology is unchanged. -/
theorem C9_deterministic_rerun (cfg : SimConfig) (trace : Trace) (twin : CityDigitalTwin)
    (ivs : List Intervention) :
    (run_simulation cfg trace ((run_simulation cfg trace twin ivs).2) ivs).1
        = (run_simulation cfg trace twin ivs).1
    ∧ ((run_simulation cfg trace twin ivs).2).initial_state = twin.initial_state := by
  refine ⟨?_, run_simulation_snd_init cfg trace twin ivs⟩
  rw [run_simulation_fst, run_simulation_fst, run_simulation_snd_init]

/-! ## Rounding lemmas and the report-stage claims -/

lemma run_simulation_snd_stations (cfg : SimConfig) (trace : Trace) (t : CityDigitalTwin)
    (ivs : List Intervention) :
    (run_simulation cfg trace t ivs).2.stations
      = runMinutes cfg ivs trace
          (_apply_static_interventions (buildStations t.initial_state) ivs) (24 * 60) := by
  unfold run_simulation
  dsimp only

lemma pyRound1_zero : pyRound1 0 = 0 := by
  unfold pyRound1
  norm_num

lemma pyRound1_nonneg_le (q : ℚ) (h0 : 0 ≤ q) (h100 : q ≤ 100) :
    0 ≤ pyRound1 q ∧ pyRound1 q ≤ 100 := by
  unfold pyRound1
  dsimp only
  set x := q * 10 with hxdef
  have hx0 : 0 ≤ x := by rw [hxdef]; positivity
  have hx1000 : x ≤ 1000 := by rw [hxdef]; linarith
  set n := ⌊x⌋ with hndef
  have hfl : (n : ℚ) ≤ x := Int.floor_le x
  have hfu : x < (n : ℚ) + 1 := Int.lt_floor_add_one x
  have hn0 : 0 ≤ n := Int.floor_nonneg.mpr hx0
  have hn0q : (0 : ℚ) ≤ (n : ℚ) := by exact_mod_cast hn0
  have hn1000 : (n : ℚ) ≤ 1000 := le_trans hfl hx1000
  have key : ¬ (x - (n : ℚ) < 1 / 2) → (n : ℚ) + 1 ≤ 1000 := by
    intro hcase
    have h1 : (1 : ℚ) / 2 ≤ x - (n : ℚ) := le_of_not_lt hcase
    have h3 : n < 1000 := by
      by_contra hcon
      push_neg at hcon
      have : (1000 : ℚ) ≤ (n : ℚ) := by exact_mod_cast hcon
      linarith
    have h4 : n + 1 ≤ 1000 := by omega
    exact_mod_cast h4
  constructor
  · apply div_nonneg _ (by norm_num : (0 : ℚ) ≤ 10)
    split_ifs <;> linarith
  · rw [div_le_iff (by norm_num : (0 : ℚ) < 10)]
    split_ifs with hA hB hC
    · linarith
    · linarith [key hA]
    · linarith
    · linarith [key hA]

/-! ## C7: charger utilization percentage stays in [0, 100] -/

/-- C7: the report of a full run maps every final station state to its
per-station block; the utilization percentage equals
`round(util / (chargers × 1440) × 100, 1)` when `chargers × 1440 > 0`
and 0 otherwise, and it always lies within [0, 100] (because a station's
utilization minutes grow by at most `chargers` per minute over the 1440
minutes of the run). -/
theorem C7_utilization_bound (cfg : SimConfig) (trace : Trace) (twin : CityDigitalTwin)
    (ivs : List Intervention) (p : String × Station)
    (hp : p ∈ (run_simulation cfg trace twin ivs).2.stations) :
    (run_simulation cfg trace twin ivs).1.stations
        = ((run_simulation cfg trace twin ivs).2.stations).map
            (fun q => (q.1, stationReportOf q.2))
    ∧ (p.1, stationReportOf p.2) ∈ (run_simulation cfg trace twin ivs).1.stations
    ∧ (stationReportOf p.2).charger_utilization_pct
        = (if 0 < p.2.chargers * (24 * 60)
            then pyRound1 ((p.2.charger_utilization_minutes : ℚ)
                / ((p.2.chargers * (24 * 60) : Int) : ℚ) * 100)
            else 0)
    ∧ 0 ≤ (stationReportOf p.2).charger_utilization_pct
    ∧ (stationReportOf p.2).charger_utilization_pct ≤ 100 := by
  have hstations : (run_simulation cfg trace twin ivs).1.stations
      = ((run_simulation cfg trace twin ivs).2.stations).map
          (fun q => (q.1, stationReportOf q.2)) := by
    rw [run_simulation_fst, run_simulation_snd_stations]
    unfold _generate_report
    dsimp only
  have hmem2 : (p.1, stationReportOf p.2) ∈ (run_simulation cfg trace twin ivs).1.stations := by
    rw [hstations]
    exact List.mem_map_of_mem _ hp
  have hform : (stationReportOf p.2).charger_utilization_pct
      = (if 0 < p.2.chargers * (24 * 60)
          then pyRound1 ((p.2.charger_utilization_minutes : ℚ)
              / ((p.2.chargers * (24 * 60) : Int) : ℚ) * 100)
          else 0) := by
    unfold stationReportOf
    dsimp only
    by_cases hc : 0 < p.2.chargers * (24 * 60)
    · rw [if_pos hc, if_pos hc]
    · rw [if_neg hc, if_neg hc, pyRound1_zero]
  have hputil : 0 ≤ p.2.charger_utilization_minutes
      ∧ p.2.charger_utilization_minutes ≤ ((24 * 60 : Nat) : Int) * max p.2.chargers 0 := by
    have hinit : ∀ d : StationData,
        0 ≤ (_init_station_state d).charger_utilization_minutes
        ∧ (_init_station_state d).charger_utilization_minutes
            ≤ ((0 : Nat) : Int) * max (_init_station_state d).chargers 0 := by
      intro d
      constructor
      · exact le_refl 0
      · simp [_init_station_state]
    have h0 : MapAll
        (fun s => 0 ≤ s.charger_utilization_minutes
          ∧ s.charger_utilization_minutes ≤ ((0 : Nat) : Int) * max s.chargers 0)
        (_apply_static_interventions (buildStations twin.initial_state) ivs) := by
      apply MapAll_applyStatic
      · intro s c hs
        refine ⟨hs.1, ?_⟩
        have h2 := hs.2
        simp only [Nat.cast_zero, zero_mul] at h2 ⊢
        exact h2
      · intro d _
        exact hinit d
      · exact MapAll_buildStations _ (fun d _ => hinit d)
    have hrun := MapAll_runMinutes
      (fun j s => 0 ≤ s.charger_utilization_minutes
        ∧ s.charger_utilization_minutes ≤ (j : Int) * max s.chargers 0)
      cfg ivs trace _
      (fun j hour dm u s hs => by
        obtain ⟨a, b, c⟩ := step_util cfg hour dm u s j hs
        refine ⟨a, ?_⟩
        have : ((j + 1 : Nat) : Int) = (j : Int) + 1 := by push_cast; ring
        rw [this]
        exact b)
      h0 (24 * 60)
    have hp' := hp
    rw [run_simulation_snd_stations] at hp'
    exact hrun p hp'
  refine ⟨hstations, hmem2, hform, ?_, ?_⟩ <;>
  · rw [hform]
    by_cases hc : 0 < p.2.chargers * (24 * 60)
    · have hcpos : 0 < p.2.chargers := by
        by_contra hcon
        push_neg at hcon
        nlinarith
      have hmaxc : max p.2.chargers 0 = p.2.chargers := max_eq_left hcpos.le
      have hle : p.2.charger_utilization_minutes ≤ p.2.chargers * (24 * 60) := by
        have h2 := hputil.2
        rw [hmaxc] at h2
        have hcst : ((24 * 60 : Nat) : Int) = (24 * 60 : Int) := by norm_num
        rw [hcst] at h2
        linarith [h2]
      have hdq : (0 : ℚ) < ((p.2.chargers * (24 * 60) : Int) : ℚ) := by exact_mod_cast hc
      have huq0 : (0 : ℚ) ≤ (p.2.charger_utilization_minutes : ℚ) := by
        exact_mod_cast hputil.1
      have huqd : (p.2.charger_utilization_minutes : ℚ)
          ≤ ((p.2.chargers * (24 * 60) : Int) : ℚ) := by exact_mod_cast hle
      have hval0 : 0 ≤ (p.2.charger_utilization_minutes : ℚ)
          / ((p.2.chargers * (24 * 60) : Int) : ℚ) * 100 := by positivity
      have hval100 : (p.2.charger_utilization_minutes : ℚ)
          / ((p.2.chargers * (24 * 60) : Int) : ℚ) * 100 ≤ 100 := by
        have hr : (p.2.charger_utilization_minutes : ℚ)
            / ((p.2.chargers * (24 * 60) : Int) : ℚ) ≤ 1 := (div_le_one hdq).mpr huqd
        linarith
      have hb := pyRound1_nonneg_le _ hval0 hval100
      rw [if_pos hc]
      first
      | exact hb.1
      | exact hb.2
    · rw [if_neg hc]
      try norm_num

/-! ## C8: division guards in report generation -/

/-- C8: report generation is a total function with explicit zero guards
(the embedding is total by construction, mirroring the source's
conditional expressions): a station with 0 fulfilled swaps reports
average wait 0, a station with `chargers ≤ 0` reports utilization 0,
the network average wait is 0 whenever the total fulfilled-swap count is
0 (in particular for an empty station set), and otherwise it is the
volume-weighted ratio of total wait minutes to total swaps, not the mean
of the per-station averages. -/
theorem C8_report_zero_guards (cfg : SimConfig) (trace : Trace) (twin : CityDigitalTwin)
    (ivs : List Intervention) :
    (∀ p ∈ (run_simulation cfg trace twin ivs).2.stations,
        (p.2.total_swaps_fulfilled = 0 → (stationReportOf p.2).avg_wait_time_min = 0)
      ∧ (p.2.chargers ≤ 0 → (stationReportOf p.2).charger_utilization_pct = 0))
    ∧ ((((run_simulation cfg trace twin ivs).2.stations).map
          (fun p => p.2.total_swaps_fulfilled)).sum = 0 →
        (run_simulation cfg trace twin ivs).1.avg_wait_time = 0)
    ∧ (0 < (((run_simulation cfg trace twin ivs).2.stations).map
          (fun p => p.2.total_swaps_fulfilled)).sum →
        (run_simulation cfg trace twin ivs).1.avg_wait_time
          = pyRound1 ((((((run_simulation cfg trace twin ivs).2.stations).map
                (fun p => p.2.total_wait_time_minutes)).sum : Int) : ℚ)
              / (((((run_simulation cfg trace twin ivs).2.stations).map
                (fun p => p.2.total_swaps_fulfilled)).sum : Int) : ℚ))) := by
  have havg : (run_simulation cfg trace twin ivs).1.avg_wait_time
      = (if 0 < (((run_simulation cfg trace twin ivs).2.stations).map
            (fun p => p.2.total_swaps_fulfilled)).sum
          then pyRound1 ((((((run_simulation cfg trace twin ivs).2.stations).map
                (fun p => p.2.total_wait_time_minutes)).sum : Int) : ℚ)
              / (((((run_simulation cfg trace twin ivs).2.stations).map
                (fun p => p.2.total_swaps_fulfilled)).sum : Int) : ℚ))
          else 0) := by
    rw [run_simulation_fst, run_simulation_snd_stations]
    unfold _generate_report
    dsimp only
  refine ⟨?_, ?_, ?_⟩
  · intro p _
    constructor
    · intro h0
      unfold stationReportOf
      dsimp only
      rw [h0, if_neg (lt_irrefl 0)]
      exact pyRound1_zero
    · intro hc0
      unfold stationReportOf
      dsimp only
      have hneg : ¬ (0 < p.2.chargers * (24 * 60)) := by nlinarith
      rw [if_neg hneg]
      exact pyRound1_zero
  · intro hz
    rw [havg, hz]
    exact if_neg (lt_irrefl 0)
  · intro hpos
    rw [havg, if_pos hpos]

/-! ## Concrete instances used by the remaining witnesses -/

/-- Configuration with zero arrival probability (and no configured
charge time) used by the concrete witness runs. -/
def cfgZero : SimConfig :=
  { avgChargeTime := none, arrivalProb := fun _ _ => 0 }

/-- Trace whose uniform draws are all 0 (never below a zero arrival
probability, so no arrivals occur). -/
def traceZero : Trace := fun _ _ => 0

/-- A one-station topology with no initial inventory. -/
def dZero : StationData :=
  { id := "S", total_slots := some 1, chargers := some 1, initial_inventory := some 0 }

/-- The initialized state of `dZero`. -/
def stZero : Station := _init_station_state dZero

lemma chargingPhase_empty (s : Station) (h1 : s.inventory_charging = []) :
    chargingPhase s = s := by
  cases s with
  | mk sid slots chg ini ready charging q swaps lost wait idle util =>
    simp only at h1
    subst h1
    simp [chargingPhase, chargeLoop]

lemma idlePhase_zero (s : Station) (h2 : s.inventory_ready = 0) : idlePhase s = s := by
  unfold idlePhase
  rw [if_neg (by omega)]

lemma servicePhase_zero_queue (ct : Int) (s : Station) (h3 : s.queue_length = 0) :
    servicePhase ct s = s := by
  rw [servicePhase, serviceLoop_spec]
  have hz : min 4 (min s.queue_length.toNat s.inventory_ready.toNat) = 0 := by omega
  rw [hz]
  cases s with
  | mk sid slots chg ini ready charging q swaps lost wait idle util => simp

lemma waitPhase_zero_queue (s : Station) (h3 : s.queue_length = 0) : waitPhase s = s := by
  cases s with
  | mk sid slots chg ini ready charging q swaps lost wait idle util =>
    simp only at h3
    subst h3
    simp [waitPhase]

/-- A station with empty charging list, no ready inventory and empty
queue is a fixed point of the minute-step under `cfgZero` and a zero
draw. -/
lemma step_quiescent (hour dm : ℚ) (s : Station) (h1 : s.inventory_charging = [])
    (h2 : s.inventory_ready = 0) (h3 : s.queue_length = 0) :
    _simulate_station_step cfgZero hour dm 0 s = s := by
  have hch := chargingPhase_empty s h1
  have hid : idlePhase (chargingPhase s) = s := by
    rw [hch]; exact idlePhase_zero s h2
  have harr : arrivalPhase (idlePhase (chargingPhase s))
      (decide ((0 : ℚ) < cfgZero.arrivalProb (idlePhase (chargingPhase s)) hour * dm)) = s := by
    rw [hid]
    have hprob : cfgZero.arrivalProb s hour * dm = 0 := by
      show (0 : ℚ) * dm = 0
      ring
    rw [hprob]
    norm_num [arrivalPhase]
  show waitPhase (servicePhase (CHARGE_TIME_MINUTES cfgZero)
    (arrivalPhase (idlePhase (chargingPhase s))
      (decide ((0 : ℚ) < cfgZero.arrivalProb (idlePhase (chargingPhase s)) hour * dm)))) = s
  rw [harr, servicePhase_zero_queue _ s h3, waitPhase_zero_queue s h3]

/-- Under `cfgZero`/`traceZero` the singleton quiescent map never
changes, for any number of minutes. -/
lemma runMinutes_quiescent : ∀ k : Nat,
    runMinutes cfgZero [] traceZero [("S", stZero)] k = [("S", stZero)] := by
  intro k
  induction k with
  | zero => rfl
  | succ k ih =>
    rw [runMinutes_succ, ih]
    show [("S", _simulate_station_step cfgZero ((k : ℚ) / 60)
        (_get_current_demand_modifier ((k : ℚ) / 60) []) 0 stZero)]
      = [("S", stZero)]
    rw [step_quiescent _ _ stZero rfl rfl rfl]

lemma final_map_quiescent :
    (run_simulation cfgZero traceZero { initial_state := [dZero], stations := [] } []).2.stations
      = [("S", stZero)] := by
  rw [run_simulation_snd_stations]
  exact runMinutes_quiescent (24 * 60)

/-- Witness for C4 on a concrete two-minute run. -/
theorem C4_nonnegative_counts_witness :
    (0 : Int) ≤ stZero.inventory_ready ∧ (0 : Int) ≤ stZero.queue_length :=
  C4_nonnegative_counts cfgZero traceZero [dZero] [] 2 (by norm_num) (by decide) (by decide)
    ("S", stZero)
    (by rw [show _apply_static_interventions (buildStations [dZero]) [] = [("S", stZero)]
          from rfl]
        rw [runMinutes_quiescent 2]
        exact List.mem_singleton.mpr rfl)

/-- Witness for C10 on a concrete two-minute run. -/
theorem C10_battery_conservation_witness :
    stZero.inventory_ready + (stZero.inventory_charging.length : Int)
      = stZero.initial_inventory :=
  C10_battery_conservation cfgZero traceZero [dZero] [] 2 (by norm_num)
    ("S", stZero)
    (by rw [show _apply_static_interventions (buildStations [dZero]) [] = [("S", stZero)]
          from rfl]
        rw [runMinutes_quiescent 2]
        exact List.mem_singleton.mpr rfl)

/-- Witness for C7 on a concrete full run. -/
theorem C7_utilization_bound_witness :
    0 ≤ (stationReportOf stZero).charger_utilization_pct
    ∧ (stationReportOf stZero).charger_utilization_pct ≤ 100 :=
  ⟨(C7_utilization_bound cfgZero traceZero { initial_state := [dZero], stations := [] } []
      ("S", stZero)
      (by rw [final_map_quiescent]; exact List.mem_singleton.mpr rfl)).2.2.2.1,
   (C7_utilization_bound cfgZero traceZero { initial_state := [dZero], stations := [] } []
      ("S", stZero)
      (by rw [final_map_quiescent]; exact List.mem_singleton.mpr rfl)).2.2.2.2⟩

/-- Witness for C8 on a concrete full run with zero swaps overall. -/
theorem C8_report_zero_guards_witness :
    (run_simulation cfgZero traceZero { initial_state := [dZero], stations := [] } []).1.avg_wait_time
      = 0 :=
  (C8_report_zero_guards cfgZero traceZero { initial_state := [dZero], stations := [] } []).2.1
    (by rw [final_map_quiescent]; rfl)
